import Mathlib

/-!
Shallow embedding of `src/app.py` (a Streamlit real-time news tracker) for
checking the natural-language specification against the code.

Timestamps are modelled as natural numbers (seconds since the epoch).
Python's `re.search(term, text, re.IGNORECASE)` is modelled by a small regex
engine over the fragment of patterns the code's terms can use here:
literal characters, the wildcard dot, and the postfix quantifiers
star, plus and question mark.  A pattern outside the fragment, or one that
Python's `re` rejects (for example a quantifier with nothing to repeat),
parses to `none`, modelling the `re.error` exception that `re.search` raises.
Case-insensitivity is modelled by lowercasing both pattern and text.
-/

namespace NewsTracker

/-- A regex atom: a literal character or the wildcard dot. -/
inductive RAtom where
  | lit (c : Char)
  | dot
deriving Repr, DecidableEq

/-- A regex piece: an atom with an optional postfix quantifier. -/
inductive RPiece where
  | once (a : RAtom)
  | star (a : RAtom)
  | plus (a : RAtom)
  | opt  (a : RAtom)
deriving Repr, DecidableEq

/-- Characters that are regex metacharacters for Python's `re`. -/
def isMetaChar (c : Char) : Bool :=
  c = '*' || c = '+' || c = '?' || c = '.' || c = '{' || c = '}' ||
  c = '[' || c = ']' || c = '\\' || c = '|' || c = '(' || c = ')' ||
  c = '^' || c = '$'

/-- Parse a pattern, carrying the previous atom so a following quantifier
can attach to it.  `none` models `re.error`: a quantifier with no previous
atom is "nothing to repeat", a quantifier right after another quantifier is
"multiple repeat"; metacharacters outside the modelled fragment are
rejected as unsupported. -/
def parseRxAux : Option RAtom → List Char → Option (List RPiece)
  | pending, [] =>
    some (match pending with
          | some a => [RPiece.once a]
          | none => [])
  | pending, c :: rest =>
    if c = '*' then
      match pending with
      | some a => (parseRxAux none rest).map (fun ps => RPiece.star a :: ps)
      | none => none
    else if c = '+' then
      match pending with
      | some a => (parseRxAux none rest).map (fun ps => RPiece.plus a :: ps)
      | none => none
    else if c = '?' then
      match pending with
      | some a => (parseRxAux none rest).map (fun ps => RPiece.opt a :: ps)
      | none => none
    else if isMetaChar c && c ≠ '.' then none
    else
      let a2 := if c = '.' then RAtom.dot else RAtom.lit c
      match pending with
      | some a => (parseRxAux (some a2) rest).map (fun ps => RPiece.once a :: ps)
      | none => parseRxAux (some a2) rest

/-- Parse a whole pattern (as a character list) into regex pieces. -/
def parseRx (l : List Char) : Option (List RPiece) :=
  parseRxAux none l

/-- Does an atom match one character? -/
def matchAtom : RAtom → Char → Bool
  | RAtom.lit c, d => c = d
  | RAtom.dot, _ => true

/-- All suffixes of `cs` reachable by consuming zero or more leading
characters that match atom `a`; the suffix choices a starred atom leaves
for the rest of the pattern. -/
def starChoices (a : RAtom) : List Char → List (List Char)
  | [] => [[]]
  | c :: cs =>
    (c :: cs) :: (if matchAtom a c then starChoices a cs else [])

/-- Does the piece list match some prefix of the character list? -/
def matchHere : List RPiece → List Char → Bool
  | [], _ => true
  | RPiece.once a :: ps, cs =>
    match cs with
    | [] => false
    | c :: cs2 => matchAtom a c && matchHere ps cs2
  | RPiece.opt a :: ps, cs =>
    matchHere ps cs ||
      (match cs with
       | [] => false
       | c :: cs2 => matchAtom a c && matchHere ps cs2)
  | RPiece.star a :: ps, cs =>
    (starChoices a cs).any (fun rest => matchHere ps rest)
  | RPiece.plus a :: ps, cs =>
    match cs with
    | [] => false
    | c :: cs2 =>
      matchAtom a c && (starChoices a cs2).any (fun rest => matchHere ps rest)

/-- Does the piece list match starting at some position of the text?
Models `re.search`'s scan over all start positions. -/
def searchFrom (ps : List RPiece) : List Char → Bool
  | [] => matchHere ps []
  | c :: cs => matchHere ps (c :: cs) || searchFrom ps cs

/-- Lowercased character list of a string; models `re.IGNORECASE` folding. -/
def lowerChars (s : String) : List Char :=
  s.data.map Char.toLower

/-- Model of Python's `re.search(pat, text, re.IGNORECASE) is not None`.
`none` models `re.search` raising `re.error` on an invalid pattern. -/
def reSearchCI (pat text : String) : Option Bool :=
  (parseRx (lowerChars pat)).map (fun ps => searchFrom ps (lowerChars text))

/-- Is `needle` a prefix of `hay` (character lists)? -/
def leadsWith : List Char → List Char → Bool
  | [], _ => true
  | _ :: _, [] => false
  | a :: as, b :: bs => a = b && leadsWith as bs

/-- Does `needle` occur as a contiguous sublist of `hay`? -/
def occursIn (needle : List Char) : List Char → Bool
  | [] => leadsWith needle []
  | c :: cs => leadsWith needle (c :: cs) || occursIn needle cs

/-- Case-insensitive literal-substring test (the spec's wording of matching). -/
def occursInCI (needle hay : String) : Bool :=
  occursIn (lowerChars needle) (lowerChars hay)

/-- A string is a plain pattern when none of its lowercased characters is a
regex metacharacter (dot included). -/
def plainStr (s : String) : Bool :=
  (lowerChars s).all (fun c => !isMetaChar c)

/-- A raw feed entry as used by `process_new_articles`: `title` and `link`
are accessed directly, `summary` and `published` through `.get` with a
default, so the latter two are optional. -/
structure Entry where
  title : String
  link : String
  summary : Option String
  published : Option String
deriving Repr, DecidableEq

/-- The article dict built at `app.py` lines 123-130. -/
structure Article where
  title : String
  link : String
  published : String
  summary : String
  timestamp : Nat
  search_term : String
deriving Repr, DecidableEq

/-- One element of `st.session_state.tracking_data[term]` (lines 138-141). -/
structure MEvent where
  timestamp : Nat
  count : Nat
deriving Repr, DecidableEq

/-- The relevant `st.session_state` fields (lines 61-77).
`tracking_data` is a plain dict (absent key modelled by `none`);
`articles` is a `defaultdict(list)` (every key readable, default `[]`). -/
structure SessionState where
  search_terms : List String
  tracking_data : String → Option (List MEvent)
  articles : String → List Article
  last_update : Nat
  is_tracking : Bool
  start_time : Nat

/-- Pointwise update of a dict-as-function at one key. -/
def updFn {α : Type} (f : String → α) (k : String) (v : α) : String → α :=
  fun q => if q = k then v else f q

/-- Session state right after the initializers at lines 61-77 run,
with the two `datetime.now()` reads passed in as `t0`. -/
def initState (t0 : Nat) : SessionState :=
  { search_terms := []
    tracking_data := fun _ => none
    articles := fun _ => []
    last_update := t0
    is_tracking := false
    start_time := t0 }

/-- Entries contributed by one feed URL inside `fetch_google_news`:
the `try` block appends `feed.entries` on success and the `except` block
swallows the error and continues, contributing nothing. -/
def urlEntries (r : Except String (List Entry)) : List Entry :=
  match r with
  | Except.ok es => es
  | Except.error _ => []

/-- `fetch_google_news(search_term)` (lines 79-105): three candidate URLs are
tried in order; each is parsed inside `try/except`, so the function always
returns normally with the concatenation of the successful URLs' entries.
`pf term i` models `feedparser.parse` on the i-th URL built for `term`. -/
def fetch_google_news (pf : String → Nat → Except String (List Entry))
    (term : String) : List Entry :=
  urlEntries (pf term 0) ++ urlEntries (pf term 1) ++ urlEntries (pf term 2)

/-- The article record appended at lines 123-132. -/
def mkArticle (e : Entry) (term : String) (now : Nat) : Article :=
  { title := e.title
    link := e.link
    published := e.published.getD ""
    summary := e.summary.getD ""
    timestamp := now
    search_term := term }

/-- Append an article and its mention event for `term` (lines 132-141):
the article list for the term and `tracking_data[term]` (created as `[]`
when absent) are both appended to. -/
def appendMatch (s : SessionState) (term : String) (e : Entry) (now : Nat) :
    SessionState :=
  { s with
    articles := updFn s.articles term (s.articles term ++ [mkArticle e term now])
    tracking_data := updFn s.tracking_data term
      (some ((s.tracking_data term).getD [] ++ [⟨now, 1⟩])) }

/-- The `for entry in entries` loop of `process_new_articles` (lines 115-141).
`existing` is the snapshot of stored links taken once before the loop; it is
not refreshed as articles are appended.  The returned Bool is true when
`re.search` raised (`re.error` on an invalid pattern), in which case the loop
stops there and the exception propagates; mutations already made persist. -/
def processLoop (term : String) (now : Nat) (existing : List String) :
    List Entry → SessionState → SessionState × Bool
  | [], s => (s, false)
  | e :: es, s =>
    if existing.contains e.link then
      processLoop term now existing es s
    else
      match reSearchCI term e.title, reSearchCI term (e.summary.getD "") with
      | some tm, some sm =>
        if tm || sm then processLoop term now existing es (appendMatch s term e now)
        else processLoop term now existing es s
      | _, _ => (s, true)

/-- `process_new_articles(entries, search_term)` (lines 107-143), with the
single `datetime.now()` read at line 110 passed in as `now`. -/
def process_new_articles (s : SessionState) (entries : List Entry)
    (term : String) (now : Nat) : SessionState × Bool :=
  processLoop term now ((s.articles term).map (fun a => a.link)) entries s

/-- The `for term in st.session_state.search_terms` loop of `update_news`
(lines 152-154).  An exception from `process_new_articles` aborts the loop
and propagates (true flag); there is no `try/except` here. -/
def updateLoop (pf : String → Nat → Except String (List Entry))
    (termNow : String → Nat) :
    List String → SessionState → SessionState × Bool
  | [], s => (s, false)
  | t :: ts, s =>
    match process_new_articles s (fetch_google_news pf t) t (termNow t) with
    | (s2, true) => (s2, true)
    | (s2, false) => updateLoop pf termNow ts s2

/-- `update_news()` (lines 145-154): early return when no terms are set,
otherwise `last_update = now()` is set first and then every term is fetched
and processed.  `termNow t` models the `datetime.now()` read inside
`process_new_articles` for term `t`. -/
def update_news (pf : String → Nat → Except String (List Entry))
    (termNow : String → Nat) (now : Nat) (s : SessionState) :
    SessionState × Bool :=
  if s.search_terms = [] then (s, false)
  else updateLoop pf termNow s.search_terms { s with last_update := now }

/-- `start_tracking()` (lines 156-167): set the flag and both clocks, clear
`tracking_data` and `articles`, then run one immediate `update_news()`.
The successive `datetime.now()` reads during the call are modelled as the
single instant `now`. -/
def start_tracking (pf : String → Nat → Except String (List Entry))
    (termNow : String → Nat) (now : Nat) (s : SessionState) :
    SessionState × Bool :=
  update_news pf termNow now
    { s with
      is_tracking := true
      start_time := now
      last_update := now
      tracking_data := fun _ => none
      articles := fun _ => [] }

/-- `stop_tracking()` (lines 169-171). -/
def stop_tracking (s : SessionState) : SessionState :=
  { s with is_tracking := false }

/-- The host's auto-update check (lines 312-316): one rerun computes
`time_diff = now - last_update` and calls `update_news()` only when tracking
is active and at least 60 seconds have passed. -/
def tick (pf : String → Nat → Except String (List Entry))
    (termNow : String → Nat) (now : Nat) (s : SessionState) :
    SessionState × Bool :=
  if s.is_tracking && decide (60 ≤ now - s.last_update) then
    update_news pf termNow now s
  else (s, false)

/-- The Set Search Terms button handler (lines 275-282): keep the inputs
that are non-blank after stripping; replace `search_terms` wholesale when at
least one remains, otherwise show an error and leave the state untouched. -/
def set_search_terms (t1 t2 t3 : String) (s : SessionState) : SessionState :=
  let terms := [t1, t2, t3].filter (fun t => t.trim ≠ "")
  if terms ≠ [] then { s with search_terms := terms } else s

/-- `get_time_series_data(search_term)` (lines 173-198), at seconds
granularity.  A missing `tracking_data` key or an empty event list yields the
empty frame.  Otherwise `pd.date_range(start_time, now, freq=1min)` is the
grid `start_time + 60*k` for `k = 0 .. (now - start_time) / 60` (empty when
`now < start_time`), and `df.resample(1min).sum().reindex(full_range, 0)`
puts at grid point `g` the summed count of the events whose wall-clock
minute bucket `(t / 60) * 60` equals `g`, zero when none does. -/
def get_time_series_data (s : SessionState) (term : String) (now : Nat) :
    List (Nat × Nat) :=
  match s.tracking_data term with
  | none => []
  | some evs =>
    if evs = [] then []
    else if now < s.start_time then []
    else
      (List.range ((now - s.start_time) / 60 + 1)).map (fun k =>
        (s.start_time + 60 * k,
         ((evs.filter (fun ev =>
             ev.timestamp / 60 * 60 = s.start_time + 60 * k)).map
           (fun ev => ev.count)).sum))

/-- `get_total_mentions()` for one term (line 204): `len(articles[term])`. -/
def totalMentions (s : SessionState) (term : String) : Nat :=
  (s.articles term).length

/-- Events recorded for a term, the absent key reading as `[]`. -/
def eventsOf (s : SessionState) (term : String) : List MEvent :=
  (s.tracking_data term).getD []

/-- Articles and mention events are appended in lockstep, so per term the
recorded event timestamps are exactly the stored articles' timestamps. -/
def sessionInv (s : SessionState) : Prop :=
  ∀ t, (eventsOf s t).map (fun ev => ev.timestamp) =
    (s.articles t).map (fun a => a.timestamp)

/-! Concrete states and feed behaviours used to evaluate the code at
specific inputs. -/

/-- Tracking terms x and y since time 0; one mention event for y at
time 30, none for x. -/
def zeroEventState : SessionState :=
  ⟨["x", "y"], updFn (fun _ => none) "y" (some [⟨30, 1⟩]), fun _ => [],
    0, true, 0⟩

/-- Tracking term x since time 0 with one mention event at time 0. -/
def ninetySecondState : SessionState :=
  ⟨["x"], updFn (fun _ => none) "x" (some [⟨0, 1⟩]), fun _ => [],
    0, true, 0⟩

/-- Tracking term x since time 30 (not a minute boundary) with one mention
event at time 45. -/
def offsetState : SessionState :=
  ⟨["x"], updFn (fun _ => none) "x" (some [⟨45, 1⟩]), fun _ => [],
    30, true, 30⟩

/-- Actively tracking the single term "+", an invalid regex pattern. -/
def plusTermState : SessionState :=
  ⟨["+"], fun _ => none, fun _ => [], 0, true, 0⟩

/-- Actively tracking rust and golang since time 0 with no data yet. -/
def rustGoState : SessionState :=
  ⟨["rust", "golang"], fun _ => none, fun _ => [], 0, true, 0⟩

/-- An article stored for term x before a restart. -/
def staleArticle : Article :=
  ⟨"x old", "K", "", "", 1, "x"⟩

/-- Actively tracking x with one accumulated article and mention event. -/
def accumulatedState : SessionState :=
  ⟨["x"], updFn (fun _ => none) "x" (some [⟨1, 1⟩]),
    updFn (fun _ => []) "x" [staleArticle], 1, true, 0⟩

/-- Feed behaviour: the first URL of every term yields one entry titled
"today", the other URLs yield nothing. -/
def pfOneEntry : String → Nat → Except String (List Entry) :=
  fun _ i => if i = 0 then Except.ok [⟨"today", "L", none, none⟩]
             else Except.ok []

/-- Feed behaviour: the first URL of every term yields one entry whose
title mentions x, the other URLs yield nothing. -/
def pfMatchX : String → Nat → Except String (List Entry) :=
  fun _ i => if i = 0 then Except.ok [⟨"x headline", "L", none, none⟩]
             else Except.ok []

/-- Feed behaviour: every URL of every term fails to fetch. -/
def pfAllFail : String → Nat → Except String (List Entry) :=
  fun _ _ => Except.error "connection refused"

/-- Feed behaviour: every URL fails for rust, while golang's first URL
yields one matching entry. -/
def pfMixed : String → Nat → Except String (List Entry) :=
  fun t i =>
    if t = "rust" then Except.error "dns failure"
    else if i = 0 then Except.ok [⟨"golang release", "G", none, none⟩]
    else Except.ok []

/-! Helper lemmas: the regex engine coincides with case-insensitive literal
substring search on patterns free of metacharacters. -/

theorem updFn_self {α : Type} (f : String → α) (k : String) (v : α) :
    updFn f k v k = v := by
  simp [updFn]

theorem updFn_ne {α : Type} (f : String → α) {k q : String} (h : q ≠ k)
    (v : α) : updFn f k v q = f q := by
  simp [updFn, h]

theorem parseRxAux_plain (l : List Char)
    (h : ∀ c ∈ l, isMetaChar c = false) :
    ∀ pending : Option RAtom,
      parseRxAux pending l =
        some ((pending.map RPiece.once).toList ++
          l.map (fun c => RPiece.once (RAtom.lit c))) := by
  induction l with
  | nil =>
    intro pending
    cases pending <;> simp [parseRxAux]
  | cons c rest ih =>
    intro pending
    have hc : isMetaChar c = false := h c (by simp)
    have hrest : ∀ d ∈ rest, isMetaChar d = false :=
      fun d hd => h d (by simp [hd])
    simp only [isMetaChar, Bool.or_eq_false_iff, decide_eq_false_iff_not] at hc
    obtain ⟨⟨⟨⟨⟨⟨⟨⟨⟨⟨⟨⟨⟨h1, h2⟩, h3⟩, h4⟩, h5⟩, h6⟩, h7⟩, h8⟩, h9⟩, h10⟩,
      h11⟩, h12⟩, h13⟩, h14⟩ := hc
    have hmeta : isMetaChar c = false := by
      simp [isMetaChar, h1, h2, h3, h4, h5, h6, h7, h8, h9, h10, h11, h12,
        h13, h14]
    cases pending with
    | none =>
      simp [parseRxAux, h1, h2, h3, hmeta, h4, ih hrest]
    | some a =>
      simp [parseRxAux, h1, h2, h3, hmeta, h4, ih hrest]

theorem matchHere_lits (l : List Char) : ∀ cs : List Char,
    matchHere (l.map (fun c => RPiece.once (RAtom.lit c))) cs =
      leadsWith l cs := by
  induction l with
  | nil =>
    intro cs
    simp [matchHere, leadsWith]
  | cons c l ih =>
    intro cs
    cases cs with
    | nil => simp [matchHere, leadsWith]
    | cons d ds => simp [matchHere, leadsWith, matchAtom, ih]

theorem searchFrom_lits (l : List Char) : ∀ cs : List Char,
    searchFrom (l.map (fun c => RPiece.once (RAtom.lit c))) cs =
      occursIn l cs := by
  intro cs
  induction cs with
  | nil => simp [searchFrom, occursIn, matchHere_lits]
  | cons c cs ih => simp [searchFrom, occursIn, matchHere_lits, ih]

theorem reSearchCI_plain (p x : String) (hp : plainStr p = true) :
    reSearchCI p x = some (occursInCI p x) := by
  have h : ∀ c ∈ lowerChars p, isMetaChar c = false := by
    intro c hcmem
    have := (List.all_eq_true.mp hp) c hcmem
    simpa using this
  simp [reSearchCI, parseRx, parseRxAux_plain _ h none, occursInCI,
    searchFrom_lits]

/-! Helper lemmas about the article-processing loop. -/

theorem appendMatch_articles_self (s : SessionState) (term : String)
    (e : Entry) (now : Nat) :
    (appendMatch s term e now).articles term =
      s.articles term ++ [mkArticle e term now] := by
  simp [appendMatch, updFn]

theorem appendMatch_events_self (s : SessionState) (term : String)
    (e : Entry) (now : Nat) :
    eventsOf (appendMatch s term e now) term =
      eventsOf s term ++ [⟨now, 1⟩] := by
  simp [appendMatch, eventsOf, updFn]

theorem appendMatch_articles_ne (s : SessionState) {term t : String}
    (h : t ≠ term) (e : Entry) (now : Nat) :
    (appendMatch s term e now).articles t = s.articles t := by
  simp [appendMatch, updFn, h]

theorem appendMatch_tracking_ne (s : SessionState) {term t : String}
    (h : t ≠ term) (e : Entry) (now : Nat) :
    (appendMatch s term e now).tracking_data t = s.tracking_data t := by
  simp [appendMatch, updFn, h]

theorem processLoop_const (term : String) (now : Nat) (ex : List String)
    (es : List Entry) : ∀ s : SessionState,
    (processLoop term now ex es s).1.search_terms = s.search_terms
    ∧ (processLoop term now ex es s).1.last_update = s.last_update
    ∧ (processLoop term now ex es s).1.is_tracking = s.is_tracking
    ∧ (processLoop term now ex es s).1.start_time = s.start_time := by
  induction es with
  | nil =>
    intro s
    simp [processLoop]
  | cons e es ih =>
    intro s
    simp only [processLoop]
    split
    · exact ih s
    · cases h1 : reSearchCI term e.title with
      | none => simp
      | some tm =>
        cases h2 : reSearchCI term (e.summary.getD "") with
        | none => simp
        | some sm =>
          dsimp only
          split
          · exact ih (appendMatch s term e now)
          · exact ih s

theorem processLoop_key_ne (term : String) (now : Nat) (ex : List String)
    (es : List Entry) {t : String} (hne : t ≠ term) : ∀ s : SessionState,
    (processLoop term now ex es s).1.articles t = s.articles t
    ∧ (processLoop term now ex es s).1.tracking_data t = s.tracking_data t := by
  induction es with
  | nil =>
    intro s
    simp [processLoop]
  | cons e es ih =>
    intro s
    simp only [processLoop]
    split
    · exact ih s
    · cases h1 : reSearchCI term e.title with
      | none => simp
      | some tm =>
        cases h2 : reSearchCI term (e.summary.getD "") with
        | none => simp
        | some sm =>
          dsimp only
          split
          · have := ih (appendMatch s term e now)
            rw [appendMatch_articles_ne s hne e now,
              appendMatch_tracking_ne s hne e now] at this
            exact this
          · exact ih s

theorem processLoop_ok (term : String)
    (hv : (parseRx (lowerChars term)).isSome = true) (now : Nat)
    (ex : List String) (es : List Entry) : ∀ s : SessionState,
    (processLoop term now ex es s).2 = false := by
  obtain ⟨ps, hps⟩ := Option.isSome_iff_exists.mp hv
  induction es with
  | nil =>
    intro s
    simp [processLoop]
  | cons e es ih =>
    intro s
    have ht : reSearchCI term e.title =
        some (searchFrom ps (lowerChars e.title)) := by
      simp [reSearchCI, hps]
    have hs2 : reSearchCI term (e.summary.getD "") =
        some (searchFrom ps (lowerChars (e.summary.getD ""))) := by
      simp [reSearchCI, hps]
    simp only [processLoop]
    split
    · exact ih s
    · rw [ht, hs2]
      dsimp only
      split
      · exact ih (appendMatch s term e now)
      · exact ih s

theorem processLoop_timestamps (term : String) (now : Nat)
    (ex : List String) (es : List Entry) : ∀ (s : SessionState) (t : String)
    (a : Article), a ∈ (processLoop term now ex es s).1.articles t →
    a ∈ s.articles t ∨ a.timestamp = now := by
  induction es with
  | nil =>
    intro s t a
    simp [processLoop]
    exact fun h => Or.inl h
  | cons e es ih =>
    intro s t a
    simp only [processLoop]
    split
    · exact ih s t a
    · cases h1 : reSearchCI term e.title with
      | none => exact fun h => Or.inl h
      | some tm =>
        cases h2 : reSearchCI term (e.summary.getD "") with
        | none => exact fun h => Or.inl h
        | some sm =>
          dsimp only
          split
          · intro h
            rcases ih (appendMatch s term e now) t a h with h3 | h3
            · by_cases hte : t = term
              · subst hte
                rw [appendMatch_articles_self] at h3
                rcases List.mem_append.mp h3 with h4 | h4
                · exact Or.inl h4
                · right
                  simp at h4
                  simp [h4, mkArticle]
              · rw [appendMatch_articles_ne s hte e now] at h3
                exact Or.inl h3
            · exact Or.inr h3
          · exact ih s t a

theorem processLoop_inv (term : String) (now : Nat) (ex : List String)
    (es : List Entry) : ∀ s : SessionState, sessionInv s →
    sessionInv (processLoop term now ex es s).1 := by
  induction es with
  | nil =>
    intro s h
    simpa [processLoop] using h
  | cons e es ih =>
    intro s h
    simp only [processLoop]
    split
    · exact ih s h
    · cases h1 : reSearchCI term e.title with
      | none => exact h
      | some tm =>
        cases h2 : reSearchCI term (e.summary.getD "") with
        | none => exact h
        | some sm =>
          dsimp only
          split
          · refine ih (appendMatch s term e now) ?_
            intro t
            by_cases hte : t = term
            · subst hte
              rw [appendMatch_events_self, appendMatch_articles_self]
              simp [h t, mkArticle]
            · have e1 := appendMatch_tracking_ne s hte e now
              have e2 := appendMatch_articles_ne s hte e now
              simp only [eventsOf, e1, e2]
              exact h t
          · exact ih s h

/-! Helper lemmas about the per-term update loop of `update_news`. -/

theorem updateLoop_fetch_empty (pf : String → Nat → Except String (List Entry))
    (termNow : String → Nat) (ts : List String)
    (hf : ∀ t ∈ ts, fetch_google_news pf t = []) : ∀ s : SessionState,
    updateLoop pf termNow ts s = (s, false) := by
  induction ts with
  | nil =>
    intro s
    simp [updateLoop]
  | cons t ts ih =>
    intro s
    have h0 : fetch_google_news pf t = [] := hf t (by simp)
    have hrest : ∀ t2 ∈ ts, fetch_google_news pf t2 = [] :=
      fun t2 h2 => hf t2 (by simp [h2])
    simp only [updateLoop, h0]
    exact ih hrest s

theorem updateLoop_ok (pf : String → Nat → Except String (List Entry))
    (termNow : String → Nat) (ts : List String)
    (hv : ∀ t ∈ ts, (parseRx (lowerChars t)).isSome = true) :
    ∀ s : SessionState, (updateLoop pf termNow ts s).2 = false := by
  induction ts with
  | nil =>
    intro s
    simp [updateLoop]
  | cons t ts ih =>
    intro s
    have h0 : (parseRx (lowerChars t)).isSome = true := hv t (by simp)
    have hrest : ∀ t2 ∈ ts, (parseRx (lowerChars t2)).isSome = true :=
      fun t2 h2 => hv t2 (by simp [h2])
    have hsnd := processLoop_ok t h0 (termNow t)
      ((s.articles t).map (fun a => a.link)) (fetch_google_news pf t) s
    simp only [updateLoop]
    rcases hps : process_new_articles s (fetch_google_news pf t) t
      (termNow t) with ⟨s2, b⟩
    have hb : b = false := by
      have := hsnd
      rw [show processLoop t (termNow t)
            ((s.articles t).map (fun a => a.link))
            (fetch_google_news pf t) s =
          process_new_articles s (fetch_google_news pf t) t (termNow t)
          from rfl, hps] at this
      exact this
    subst hb
    exact ih hrest s2

theorem updateLoop_key_frame (pf : String → Nat → Except String (List Entry))
    (termNow : String → Nat) (ts : List String) (t : String)
    (hf : t ∉ ts ∨ fetch_google_news pf t = []) : ∀ s : SessionState,
    (updateLoop pf termNow ts s).1.articles t = s.articles t
    ∧ (updateLoop pf termNow ts s).1.tracking_data t = s.tracking_data t := by
  induction ts with
  | nil =>
    intro s
    simp [updateLoop]
  | cons t0 ts ih =>
    intro s
    have hf2 : t ∉ ts ∨ fetch_google_news pf t = [] := by
      rcases hf with h | h
      · exact Or.inl (fun hm => h (by simp [hm]))
      · exact Or.inr h
    by_cases ht0 : t0 = t
    · subst ht0
      have hemp : fetch_google_news pf t0 = [] := by
        rcases hf with h | h
        · exact absurd (by simp) h
        · exact h
      simp only [updateLoop, hemp]
      exact ih hf2 s
    · have hne : t ≠ t0 := fun h => ht0 h.symm
      have hkey := processLoop_key_ne t0 (termNow t0)
        ((s.articles t0).map (fun a => a.link)) (fetch_google_news pf t0)
        hne s
      simp only [updateLoop]
      rcases hps : process_new_articles s (fetch_google_news pf t0) t0
        (termNow t0) with ⟨s2, b⟩
      rw [show processLoop t0 (termNow t0)
            ((s.articles t0).map (fun a => a.link))
            (fetch_google_news pf t0) s =
          process_new_articles s (fetch_google_news pf t0) t0 (termNow t0)
          from rfl, hps] at hkey
      cases b with
      | true => exact hkey
      | false =>
        have := ih hf2 s2
        rw [hkey.1, hkey.2] at this
        exact this

theorem updateLoop_const (pf : String → Nat → Except String (List Entry))
    (termNow : String → Nat) (ts : List String) : ∀ s : SessionState,
    (updateLoop pf termNow ts s).1.search_terms = s.search_terms
    ∧ (updateLoop pf termNow ts s).1.last_update = s.last_update
    ∧ (updateLoop pf termNow ts s).1.is_tracking = s.is_tracking
    ∧ (updateLoop pf termNow ts s).1.start_time = s.start_time := by
  induction ts with
  | nil =>
    intro s
    simp [updateLoop]
  | cons t0 ts ih =>
    intro s
    have hconst := processLoop_const t0 (termNow t0)
      ((s.articles t0).map (fun a => a.link)) (fetch_google_news pf t0) s
    simp only [updateLoop]
    rcases hps : process_new_articles s (fetch_google_news pf t0) t0
      (termNow t0) with ⟨s2, b⟩
    rw [show processLoop t0 (termNow t0)
          ((s.articles t0).map (fun a => a.link))
          (fetch_google_news pf t0) s =
        process_new_articles s (fetch_google_news pf t0) t0 (termNow t0)
        from rfl, hps] at hconst
    cases b with
    | true => exact hconst
    | false =>
      have := ih s2
      rw [hconst.1, hconst.2.1, hconst.2.2.1, hconst.2.2.2] at this
      exact this

/-! Claim theorems. -/

/-- C1, counterexample: the claim says an item is stored iff the term is a
case-insensitive literal substring of its title or summary, and that an
item containing the term in neither field is never stored.  The code calls
`re.search` with the raw term as the pattern, so processing the term
"a.c" against an entry titled "abc" stores the article even though "a.c"
is a literal substring of neither the title nor the (empty) summary. -/
theorem C1_counterexample :
    ((process_new_articles (initState 0) [⟨"abc", "L", none, none⟩]
        "a.c" 5).1.articles "a.c").length = 1
    ∧ occursInCI "a.c" "abc" = false
    ∧ occursInCI "a.c" "" = false := by
  decide

/-- C1, amended: the matcher accepts a fresh item (and only then stores it)
iff the term, interpreted as a case-insensitive regex pattern, matches the
item's title or its summary (missing summary treated as the empty string).
For terms containing no regex metacharacters this coincides with
case-insensitive literal substring search, so the term "Mars" matches a
title "mars rover update", and such an item with the term in neither field
is never stored. -/
theorem C1_regex_match (s : SessionState) (e : Entry) (term : String)
    (now : Nat) (tm sm : Bool)
    (hnew : ((s.articles term).map (fun a => a.link)).contains e.link = false)
    (ht : reSearchCI term e.title = some tm)
    (hs : reSearchCI term (e.summary.getD "") = some sm) :
    (process_new_articles s [e] term now).1.articles term =
      (if tm || sm then s.articles term ++ [mkArticle e term now]
       else s.articles term)
    ∧ (∀ p x : String, plainStr p = true →
        reSearchCI p x = some (occursInCI p x)) := by
  constructor
  · by_cases hm : (tm || sm) = true
    · simp only [process_new_articles, processLoop, hnew,
        Bool.false_eq_true, if_false, ht, hs, hm, if_true]
      simp [appendMatch_articles_self]
    · simp only [process_new_articles, processLoop, hnew,
        Bool.false_eq_true, if_false, ht, hs]
      simp [hm]
  · exact fun p x hp => reSearchCI_plain p x hp

/-- C1, witness: the amended theorem evaluated on the term "Mars" and an
entry titled "mars rover update", which the matcher accepts and stores. -/
theorem C1_regex_match_witness :
    (process_new_articles (initState 0) [⟨"mars rover update", "L", none,
        none⟩] "Mars" 3).1.articles "Mars" =
      (if (true || false : Bool) then
        (initState 0).articles "Mars" ++
          [mkArticle ⟨"mars rover update", "L", none, none⟩ "Mars" 3]
       else (initState 0).articles "Mars")
    ∧ (∀ p x : String, plainStr p = true →
        reSearchCI p x = some (occursInCI p x)) :=
  C1_regex_match (initState 0) ⟨"mars rover update", "L", none, none⟩
    "Mars" 3 true false (by decide) (by decide) (by decide)

/-- C2: the claim says a link already stored for a term is never re-added,
so appending the same link any number of times leaves `count() == 1`.  The
existing-URL snapshot is taken once before the entry loop, so a batch
containing the same fresh link twice stores it twice: the code contradicts
its own stated intent of avoiding duplicates. -/
theorem C2_dup_in_batch :
    totalMentions (process_new_articles (initState 0)
      [⟨"x news", "L", none, none⟩, ⟨"x news", "L", none, none⟩]
      "x" 5).1 "x" = 2 := by
  decide

/-- C3, counterexample: the claim says a tracked term with zero mention
events gets an all-zero series of the same length as other terms' series.
In `zeroEventState` the term x is tracked with zero events while y has one
event; over the same window x's series is empty (`tracking_data` has no key
for x) while y's has three buckets. -/
theorem C3_counterexample :
    zeroEventState.search_terms.contains "x" = true
    ∧ zeroEventState.is_tracking = true
    ∧ get_time_series_data zeroEventState "x" 120 = []
    ∧ (get_time_series_data zeroEventState "y" 120).length = 3 := by
  decide

/-- C3, amended: `get_time_series_data` returns the empty series exactly
for the terms with no recorded mention events, whether currently tracked or
never tracked; a term with at least one event gets the full-length series. -/
theorem C3_empty_iff_no_events (s : SessionState) (term : String) (now : Nat)
    (h : s.start_time ≤ now) :
    (get_time_series_data s term now = [] ↔ eventsOf s term = []) := by
  unfold get_time_series_data eventsOf
  cases hts : s.tracking_data term with
  | none => simp
  | some evs =>
    by_cases he : evs = []
    · simp [he]
    · simp [he, Nat.not_lt.mpr h]

/-- C3, witness: the amended theorem evaluated on the tracked zero-event
term x of `zeroEventState`. -/
theorem C3_empty_iff_no_events_witness :
    (get_time_series_data zeroEventState "x" 120 = []
      ↔ eventsOf zeroEventState "x" = []) :=
  C3_empty_iff_no_events zeroEventState "x" 120 (by decide)

/-- C4, counterexample: the claim says the series has
`ceil((now - startTime) / interval) + 1` buckets covering `[startTime, now]`.
For `startTime = 0`, `now = 90`, interval 60 the claim demands
`ceil(90/60) + 1 = 3` buckets, but `pd.date_range(start, end, freq=1min)`
stops at the last grid point not past `end`, giving only 2. -/
theorem C4_counterexample :
    (get_time_series_data ninetySecondState "x" 90).length = 2
    ∧ (90 - ninetySecondState.start_time + 59) / 60 + 1 = 3 := by
  decide

/-- C4, amended: for a term with at least one recorded event, the series
has exactly `floor((now - startTime) / interval) + 1` buckets whose
timestamps are `startTime + interval * k` for `k = 0, 1, ...` — strictly
increasing, spaced by exactly one interval, starting at `startTime`, and
never past `now`.  The length depends only on `startTime` and `now`, so
any two terms with events yield series of identical length. -/
theorem C4_grid (s : SessionState) (term : String) (evs : List MEvent)
    (now : Nat) (hev : s.tracking_data term = some evs) (hne : evs ≠ [])
    (h : s.start_time ≤ now) :
    (get_time_series_data s term now).map Prod.fst =
      (List.range ((now - s.start_time) / 60 + 1)).map
        (fun k => s.start_time + 60 * k)
    ∧ (get_time_series_data s term now).length =
      (now - s.start_time) / 60 + 1 := by
  unfold get_time_series_data
  rw [hev]
  simp [hne, Nat.not_lt.mpr h, List.map_map, Function.comp]

/-- C4, witness: the amended theorem evaluated on term x of
`ninetySecondState` over a 90-second window. -/
theorem C4_grid_witness :
    (get_time_series_data ninetySecondState "x" 90).map Prod.fst =
      (List.range ((90 - ninetySecondState.start_time) / 60 + 1)).map
        (fun k => ninetySecondState.start_time + 60 * k)
    ∧ (get_time_series_data ninetySecondState "x" 90).length =
      (90 - ninetySecondState.start_time) / 60 + 1 :=
  C4_grid ninetySecondState "x" [⟨0, 1⟩] 90 (by decide) (by decide)
    (by decide)

/-- C5: the claim says each event in `[startTime, now]` is counted in the
bucket `floor((t - startTime) / interval) * interval + startTime`, so bucket
counts sum to the number of events.  `df.resample(1min)` labels events with
wall-clock minute buckets `floor(t / 60) * 60`, while the reindex grid is
anchored at `startTime`; with `startTime = 30` the labels never meet the
grid, so the single event at t = 45 (inside `[30, 90]`) is dropped and every
bucket reads 0 instead of the claimed bucket 30 holding count 1. -/
theorem C5_resample_drops_events :
    get_time_series_data offsetState "x" 90 = [(30, 0), (90, 0)]
    ∧ ((eventsOf offsetState "x").map (fun ev => ev.count)).sum = 1
    ∧ (∀ ev ∈ eventsOf offsetState "x",
        offsetState.start_time ≤ ev.timestamp ∧ ev.timestamp ≤ 90) := by
  decide

/-- C6, counterexample: the claim says `tick()` completes normally for
every FeedSource behaviour, including one where matching raises.  Only the
per-URL `feedparser.parse` call sits inside `try/except`; `re.search`
inside `process_new_articles` does not, so a tick over the tracked term
"+" (an invalid regex) with one fetched entry raises `re.error`, and the
exception escapes the tick (second component true). -/
theorem C6_counterexample :
    (tick pfOneEntry (fun _ => 60) 60 plusTermState).2 = true := by
  decide

/-- C6, amended: every fetch failure is contained — `fetch_google_news`
always returns normally, a failed URL simply contributes no entries — so
when every tracked term is a valid regex pattern, `tick()` completes
normally with no exception escaping, and a term all of whose URL fetches
failed (or returned nothing) has its stored articles and mention events
unchanged while the remaining terms are still processed.  An exception
raised during matching (an invalid regex term), however, propagates out of
the tick. -/
theorem C6_fetch_isolation (pf : String → Nat → Except String (List Entry))
    (termNow : String → Nat) (now : Nat) (s : SessionState)
    (hv : ∀ t ∈ s.search_terms, (parseRx (lowerChars t)).isSome = true) :
    (tick pf termNow now s).2 = false
    ∧ ∀ term, fetch_google_news pf term = [] →
        (tick pf termNow now s).1.articles term = s.articles term
        ∧ (tick pf termNow now s).1.tracking_data term = s.tracking_data term := by
  unfold tick
  split
  · unfold update_news
    split
    · simp
    · constructor
      · exact updateLoop_ok pf termNow s.search_terms hv _
      · intro term hf
        have := updateLoop_key_frame pf termNow s.search_terms term
          (Or.inr hf) { s with last_update := now }
        simpa using this
  · simp

/-- C6, witness: the amended theorem evaluated on a tick over rust and
golang where every URL for rust fails and golang's fetch succeeds; the
tick completes normally and rust's data is unchanged. -/
theorem C6_fetch_isolation_witness :
    (tick pfMixed (fun _ => 60) 60 rustGoState).2 = false
    ∧ ∀ term, fetch_google_news pfMixed term = [] →
        (tick pfMixed (fun _ => 60) 60 rustGoState).1.articles term =
          rustGoState.articles term
        ∧ (tick pfMixed (fun _ => 60) 60 rustGoState).1.tracking_data term =
          rustGoState.tracking_data term :=
  C6_fetch_isolation pfMixed (fun _ => 60) 60 rustGoState (by decide)

/-- C7: after `stop_tracking()` sets `is_tracking` to false, the host's
auto-update check skips `update_news()`, so a subsequent tick leaves the
whole state — every term's stored articles, all recorded mention events,
and `last_update` — exactly as it was, and raises nothing. -/
theorem C7_stop_then_tick (pf : String → Nat → Except String (List Entry))
    (termNow : String → Nat) (now : Nat) (s : SessionState) :
    tick pf termNow now (stop_tracking s) = (stop_tracking s, false)
    ∧ (stop_tracking s).articles = s.articles
    ∧ (stop_tracking s).tracking_data = s.tracking_data
    ∧ (stop_tracking s).last_update = s.last_update := by
  refine ⟨?_, rfl, rfl, rfl⟩
  simp [tick, stop_tracking]

/-- C8, counterexample: the claim says that immediately after `start()` —
before the next tick — `count()` is 0 for every term.  `start_tracking`
clears the stores but then itself runs one `update_news()`; with a feed
whose first URL yields an entry matching x, `count()` is already 1 when
`start()` returns. -/
theorem C8_counterexample :
    totalMentions (start_tracking pfMatchX (fun _ => 7) 7
      accumulatedState).1 "x" = 1 := by
  decide

/-- C8, amended: `start_tracking` performs a full reset — `is_tracking`
true, `start_time` and `last_update` set to the current time, every term's
articles and all mention events cleared, even when called while already
active — followed by one immediate `update_news()`; so counts after
`start()` reflect only that embedded update, and are 0 for every term
whenever it discovers nothing (for example when every fetch fails). -/
theorem C8_reset (pf : String → Nat → Except String (List Entry))
    (termNow : String → Nat) (now : Nat) (s : SessionState)
    (hempty : ∀ t ∈ s.search_terms, fetch_google_news pf t = []) :
    (start_tracking pf termNow now s).2 = false
    ∧ (start_tracking pf termNow now s).1.is_tracking = true
    ∧ (start_tracking pf termNow now s).1.start_time = now
    ∧ (start_tracking pf termNow now s).1.last_update = now
    ∧ ∀ term, (start_tracking pf termNow now s).1.articles term = []
        ∧ (start_tracking pf termNow now s).1.tracking_data term = none := by
  have hfe := updateLoop_fetch_empty pf termNow s.search_terms hempty
  simp only [start_tracking, update_news]
  split
  · simp
  · rw [hfe]
    simp

/-- C8, witness: the amended theorem evaluated on a restart of
`accumulatedState` (which holds one article and one event) with a feed
whose every fetch fails: all counts are 0 right after `start()`. -/
theorem C8_reset_witness :
    (start_tracking pfAllFail (fun _ => 7) 7 accumulatedState).2 = false
    ∧ (start_tracking pfAllFail (fun _ => 7) 7
        accumulatedState).1.is_tracking = true
    ∧ (start_tracking pfAllFail (fun _ => 7) 7
        accumulatedState).1.start_time = 7
    ∧ (start_tracking pfAllFail (fun _ => 7) 7
        accumulatedState).1.last_update = 7
    ∧ ∀ term, (start_tracking pfAllFail (fun _ => 7) 7
          accumulatedState).1.articles term = []
        ∧ (start_tracking pfAllFail (fun _ => 7) 7
            accumulatedState).1.tracking_data term = none :=
  C8_reset pfAllFail (fun _ => 7) 7 accumulatedState (by decide)

/-- C9: the Set Search Terms handler keeps the inputs that are non-blank
after stripping (with three input boxes, 0 to 3 of them); when at least one
remains it replaces `search_terms` wholesale, when none remains it errors
and leaves the previous list untouched, so at most 3 terms are ever
tracked. -/
theorem C9_set_terms (t1 t2 t3 : String) (s : SessionState)
    (hs : s.search_terms.length ≤ 3) :
    ([t1, t2, t3].filter (fun t => t.trim ≠ "") ≠ [] →
      (set_search_terms t1 t2 t3 s).search_terms =
        [t1, t2, t3].filter (fun t => t.trim ≠ ""))
    ∧ ([t1, t2, t3].filter (fun t => t.trim ≠ "") = [] →
      (set_search_terms t1 t2 t3 s).search_terms = s.search_terms)
    ∧ (set_search_terms t1 t2 t3 s).search_terms.length ≤ 3 := by
  simp only [set_search_terms]
  split
  · refine ⟨fun _ => rfl, ?_, ?_⟩
    · intro h2
      rename_i h
      exact absurd h2 h
    · simpa using List.length_filter_le (fun t => t.trim ≠ "") [t1, t2, t3]
  · refine ⟨?_, fun _ => rfl, hs⟩
    intro h2
    rename_i h
    simp only [ne_eq, not_not] at h
    exact absurd h h2

/-- C9, witness: one non-blank input among "a", "" and a blank string
replaces the term list with just "a" and keeps its length at most 3. -/
theorem C9_set_terms_witness :
    (["a", "", " "].filter (fun t => t.trim ≠ "") ≠ [] →
      (set_search_terms "a" "" " " (initState 0)).search_terms =
        ["a", "", " "].filter (fun t => t.trim ≠ ""))
    ∧ (["a", "", " "].filter (fun t => t.trim ≠ "") = [] →
      (set_search_terms "a" "" " " (initState 0)).search_terms =
        (initState 0).search_terms)
    ∧ (set_search_terms "a" "" " " (initState 0)).search_terms.length ≤ 3 :=
  C9_set_terms "a" "" " " (initState 0) (by decide)

/-- C10: articles and mention events are appended in lockstep from the
single `current_time` read at the top of `process_new_articles`: if the
event timestamps stored per term equal the article timestamps before a
batch, they still do after it (so per term the number of recorded events
always equals the stored article count), and every article present after
the batch was either already stored or carries the batch's one
`discoveredAt` timestamp. -/
theorem C10_lockstep (s : SessionState) (entries : List Entry)
    (term : String) (now : Nat) (hinv : sessionInv s) :
    sessionInv (process_new_articles s entries term now).1
    ∧ (∀ t, (eventsOf (process_new_articles s entries term now).1 t).length =
        ((process_new_articles s entries term now).1.articles t).length)
    ∧ (∀ t a, a ∈ (process_new_articles s entries term now).1.articles t →
        a ∈ s.articles t ∨ a.timestamp = now) := by
  have h1 := processLoop_inv term now
    ((s.articles term).map (fun a => a.link)) entries s hinv
  refine ⟨h1, ?_, ?_⟩
  · intro t
    have h2 := congrArg List.length (h1 t)
    simpa using h2
  · exact processLoop_timestamps term now
      ((s.articles term).map (fun a => a.link)) entries s

/-- C10, witness: the lockstep theorem evaluated on a fresh session
processing one matching entry for x at time 5. -/
theorem C10_lockstep_witness :
    sessionInv (process_new_articles (initState 0)
      [⟨"x news", "L", none, none⟩] "x" 5).1
    ∧ (∀ t, (eventsOf (process_new_articles (initState 0)
          [⟨"x news", "L", none, none⟩] "x" 5).1 t).length =
        ((process_new_articles (initState 0)
          [⟨"x news", "L", none, none⟩] "x" 5).1.articles t).length)
    ∧ (∀ t a, a ∈ (process_new_articles (initState 0)
          [⟨"x news", "L", none, none⟩] "x" 5).1.articles t →
        a ∈ (initState 0).articles t ∨ a.timestamp = 5) :=
  C10_lockstep (initState 0) [⟨"x news", "L", none, none⟩] "x" 5
    (fun _ => rfl)

end NewsTracker
